import Mathlib

/-!
Verification of the notebook-navigator plugin logic against its specification.

The definitions below are shallow embeddings of the TypeScript source:
  * sortUtils (getEffectiveSortOption, sortFiles, getSortIcon, ...)
  * FileItem (featureImageUrl computation, memo comparator)
  * IconPickerModal (constructor partition, search filtering, grid keyboard
    navigation, selectIcon sequencing)
  * EmojiPicker (handleInputChange, handleSubmit)
  * iconUtils (isEmoji)

JavaScript strings are modelled as Lean String (sequences of Unicode code
points); where the source manipulates UTF-16 code units (EmojiPicker input
slicing) the UTF-16 encoding is modelled explicitly.  JavaScript number
values holding timestamps are modelled as Int.  Host collaborators
(metadata cache, vault resource paths, DateUtils timestamp source) are
modelled as explicit function parameters, since the spec treats them as
external collaborators.
-/

/-! ### String utilities

Plain code-point level helpers standing in for the JavaScript string
operations used by the source (includes, startsWith, endsWith, toLowerCase,
trim, split).  They operate on the underlying character list so that all
evaluation is by structural recursion.
-/

/-- Is the first list a leading segment of the second list.  Models the
leading-segment test underlying the JavaScript startsWith check. -/
def listLeads : List Char → List Char → Bool
  | [], _ => true
  | _ :: _, [] => false
  | a :: as, b :: bs => a == b && listLeads as bs

/-- Does the first list occur contiguously inside the second list.  Models
the JavaScript includes (substring) test. -/
def listSubOf : List Char → List Char → Bool
  | n, [] => n.isEmpty
  | n, c :: t => listLeads n (c :: t) || listSubOf n t

/-- Does the string hay contain the string needle as a contiguous
substring; models the JavaScript String.prototype.includes. -/
def strIncludes (hay needle : String) : Bool :=
  listSubOf needle.data hay.data

/-- Does s start with p; models JavaScript String.prototype.startsWith. -/
def strStartsWith (s p : String) : Bool :=
  listLeads p.data s.data

/-- Does s end with p; models JavaScript String.prototype.endsWith. -/
def strEndsWith (s p : String) : Bool :=
  listLeads p.data.reverse s.data.reverse

/-- Lower-case every character; models String.prototype.toLowerCase for the
ASCII identifiers this code applies it to. -/
def strToLower (s : String) : String :=
  String.mk (s.data.map Char.toLower)

/-- Remove leading and trailing whitespace; models String.prototype.trim. -/
def strTrim (s : String) : String :=
  String.mk (((s.data.dropWhile Char.isWhitespace).reverse.dropWhile
    Char.isWhitespace).reverse)

/-! ### Data model

Shallow embedding of the host and plugin data types used by the verified
code paths.  Only the fields the embedded functions read are modelled.
-/

/-- The six sort options of the plugin (sortUtils SORT_OPTIONS). -/
inductive SortOption where
  | modifiedDesc
  | modifiedAsc
  | createdDesc
  | createdAsc
  | titleAsc
  | titleDesc
deriving DecidableEq, Repr

/-- Navigation item kinds (types.ts ItemType): folder, tag or file. -/
inductive NavItemType where
  | folder
  | tag
  | file
deriving DecidableEq, Repr

/-- File stat block of an Obsidian TFile: creation and modification
timestamps, modelled as exact integers. -/
structure FileStat where
  ctime : Int
  mtime : Int
deriving DecidableEq, Repr

/-- The slice of an Obsidian TFile read by the embedded code. -/
structure TFile where
  path : String
  name : String
  basename : String
  extension : String
  stat : FileStat
deriving DecidableEq, Repr

/-- The slice of an Obsidian TFolder read by the embedded code. -/
structure TFolder where
  path : String
deriving DecidableEq, Repr

/-- The slice of NotebookNavigatorSettings read by the embedded code.  The
override maps are optional objects in the source, modelled as optional
association lists keyed by folder path or tag name. -/
structure NNSettings where
  defaultFolderSort : SortOption
  folderSortOverrides : Option (List (String × SortOption))
  tagSortOverrides : Option (List (String × SortOption))
  showFeatureImage : Bool
  featureImageProperties : List String
deriving DecidableEq, Repr

/-- Property access m?.[key] on an optional object modelled as an optional
association list: first matching key wins, absent map yields nothing. -/
def overrideLookup (m : Option (List (String × SortOption))) (key : String) :
    Option SortOption :=
  match m with
  | none => none
  | some l => (l.find? (fun kv => kv.1 == key)).map (·.2)

/-! ### Sort resolver (sortUtils.ts) -/

/-- Embedding of getEffectiveSortOption.  The source guards each branch
with JavaScript truthiness: the folder branch needs a selected folder
object and a present override; the tag branch needs a truthy selected tag
string, which excludes both a missing tag and the empty string, and a
present override.  Sort option values are non-empty strings, so their
truthiness coincides with presence. -/
def getEffectiveSortOption (settings : NNSettings) (selectionType : NavItemType)
    (selectedFolder : Option TFolder) (selectedTag : Option String) : SortOption :=
  let folderHit : Option SortOption :=
    match selectionType, selectedFolder with
    | .folder, some f => overrideLookup settings.folderSortOverrides f.path
    | _, _ => none
  match folderHit with
  | some o => o
  | none =>
    let tagHit : Option SortOption :=
      match selectionType, selectedTag with
      | .tag, some t => if t = "" then none else overrideLookup settings.tagSortOverrides t
      | _, _ => none
    match tagHit with
    | some o => o
    | none => settings.defaultFolderSort

/-- Effective sort resolution as the claim words it: folder override when
the selection is a folder and an override exists for its path, else tag
override when the selection is a tag and an override exists for its name,
else the global default.  This version has no emptiness test on the tag
name; it is the comparison point for the refinement theorem. -/
def specEffectiveSortOption (settings : NNSettings) (selectionType : NavItemType)
    (selectedFolder : Option TFolder) (selectedTag : Option String) : SortOption :=
  let folderHit : Option SortOption :=
    match selectionType, selectedFolder with
    | .folder, some f => overrideLookup settings.folderSortOverrides f.path
    | _, _ => none
  match folderHit with
  | some o => o
  | none =>
    let tagHit : Option SortOption :=
      match selectionType, selectedTag with
      | .tag, some t => overrideLookup settings.tagSortOverrides t
      | _, _ => none
    match tagHit with
    | some o => o
    | none => settings.defaultFolderSort

/-- Which raw timestamp a comparator reads (the first argument of
DateUtils.getFileTimestamp in sortFiles). -/
inductive TsKind where
  | modified
  | created
deriving DecidableEq, Repr

/-- Model of localeCompare restricted to the default code-point order: a
negative, zero or positive number according to the comparison. -/
def localeCompareModel (a b : String) : Int :=
  if a < b then -1 else if a = b then 0 else 1

/-- Comparator of sortFiles as a non-strict relation: sortLeB ts opt a b
holds when the JavaScript comparator for opt returns a value that is at
most zero on (a, b), i.e. when a stable sort keeps a no later than b.
The timestamp source ts stands for DateUtils.getFileTimestamp with the
settings and metadata cache already applied; the spec treats that date
substitution as an external collaborator. -/
def sortLeB (ts : TFile → TsKind → Int) (opt : SortOption) (a b : TFile) : Bool :=
  match opt with
  | .modifiedDesc => decide (ts b .modified - ts a .modified ≤ 0)
  | .modifiedAsc => decide (ts a .modified - ts b .modified ≤ 0)
  | .createdDesc => decide (ts b .created - ts a .created ≤ 0)
  | .createdAsc => decide (ts a .created - ts b .created ≤ 0)
  | .titleAsc => decide (localeCompareModel a.basename b.basename ≤ 0)
  | .titleDesc => decide (localeCompareModel b.basename a.basename ≤ 0)

/-- Embedding of sortFiles: the in-place Array.prototype.sort with the
comparator selected by opt, modelled as the stable sort of the input list.
ECMAScript sort is stable and, for the total consistent comparators used
here, the stable sorted result is unique, so insertion sort computes it. -/
def sortFiles (ts : TFile → TsKind → Int) (opt : SortOption) (files : List TFile) :
    List TFile :=
  List.insertionSort (fun a b => sortLeB ts opt a b = true) files

/-- The order declared by the (field, direction) pair of a sort option:
ascending options put smaller keys first, descending options larger keys
first, title options compare basenames. -/
def fileKeyLe (ts : TFile → TsKind → Int) (opt : SortOption) (a b : TFile) : Prop :=
  match opt with
  | .modifiedDesc => ts b .modified ≤ ts a .modified
  | .modifiedAsc => ts a .modified ≤ ts b .modified
  | .createdDesc => ts b .created ≤ ts a .created
  | .createdAsc => ts a .created ≤ ts b .created
  | .titleAsc => a.basename ≤ b.basename
  | .titleDesc => b.basename ≤ a.basename

/-- Embedding of getSortIcon: descending options show sort-desc. -/
def getSortIcon (opt : SortOption) : String :=
  match opt with
  | .modifiedDesc | .createdDesc | .titleDesc => "sort-desc"
  | _ => "sort-asc"

/-- Embedding of shouldShowDateGrouping: true unless a title sort. -/
def shouldShowDateGrouping (opt : SortOption) : Bool :=
  match opt with
  | .titleAsc | .titleDesc => false
  | _ => true

/-- Embedding of getDateField: ctime for created sorts, mtime otherwise. -/
def getDateField (opt : SortOption) : TsKind :=
  match opt with
  | .createdDesc | .createdAsc => .created
  | _ => .modified

/-! ### Emoji classifier (iconUtils.ts) -/

/-- A JavaScript value passed to isEmoji: either a string or a value of
some other type (the source checks typeof at runtime). -/
inductive JsVal where
  | str (s : String)
  | nonString
deriving DecidableEq, Repr

/-- The fixed Unicode code-point ranges of the emoji regular expression in
iconUtils.ts, one disjunct per character class. -/
def inEmojiRange (n : Nat) : Bool :=
  (0x1F600 ≤ n && n ≤ 0x1F64F) ||
  (0x1F300 ≤ n && n ≤ 0x1F5FF) ||
  (0x1F680 ≤ n && n ≤ 0x1F6FF) ||
  (0x1F1E0 ≤ n && n ≤ 0x1F1FF) ||
  (0x2600 ≤ n && n ≤ 0x26FF) ||
  (0x2700 ≤ n && n ≤ 0x27BF) ||
  (0x1F900 ≤ n && n ≤ 0x1F9FF) ||
  (0x1F018 ≤ n && n ≤ 0x1F270) ||
  (0x238C ≤ n && n ≤ 0x2454) ||
  (0x20D0 ≤ n && n ≤ 0x20FF)

/-- The test of the emoji regular expression: with the u flag the pattern
is an alternation of single code-point classes, so it matches a string
exactly when some code point of the string lies in one of the ranges. -/
def emojiRegexTest (s : String) : Bool :=
  s.data.any (fun c => inEmojiRange c.toNat)

/-- Embedding of isEmoji: a non-string or falsy (empty) argument is
rejected up front, otherwise the regular expression decides. -/
def isEmoji (icon : JsVal) : Bool :=
  match icon with
  | .nonString => false
  | .str s => if s = "" then false else emojiRegexTest s

/-- isEmoji applied to a string value; the form used by the picker code,
whose recently-used entries are typed as strings. -/
def isEmojiStr (s : String) : Bool :=
  isEmoji (.str s)

/-! ### Feature image resolution (FileItem featureImageUrl) -/

/-- One embedded reference of the metadata cache: the link path. -/
structure EmbedRef where
  link : String
deriving DecidableEq, Repr

/-- The slice of a metadata cache entry read by featureImageUrl:
string-valued frontmatter fields and the optional embed list. -/
structure FileMeta where
  frontmatter : Option (List (String × String))
  embeds : Option (List EmbedRef)
deriving DecidableEq, Repr

/-- The host collaborators featureImageUrl calls: the image-extension
classifier of fileTypeUtils, vault resource-path resolution (returning
nothing where the source call throws), and link-path resolution of the
metadata cache. -/
structure HostEnv where
  isImage : TFile → Bool
  getResourcePath : TFile → Option String
  getFirstLinkpathDest : String → String → Option TFile

/-- Frontmatter property access metadata?.frontmatter?.[property]. -/
def fmValue (metadata : Option FileMeta) (property : String) : Option String :=
  match metadata with
  | none => none
  | some m =>
    match m.frontmatter with
    | none => none
    | some fm => (fm.find? (fun kv => kv.1 == property)).map (·.2)

/-- Strip one layer of wikilink brackets: a value of the shape given by
startsWith and endsWith double brackets loses its first two and last two
characters (slice(2, -2)); anything else is returned unchanged. -/
def stripWikilink (v : String) : String :=
  if strStartsWith v "[[" && strEndsWith v "]]" then
    String.mk ((v.data.drop 2).take ((v.data.drop 2).length - 2))
  else v

/-- The frontmatter property loop of featureImageUrl: walk the configured
properties in order; a missing or falsy (empty) value continues, a value
whose possibly wikilink-wrapped path fails to resolve continues, a
resolved file whose resource path throws continues, and the first resource
path obtained is returned. -/
def fmPropLoop (env : HostEnv) (file : TFile) (metadata : Option FileMeta) :
    List String → Option String
  | [] => none
  | property :: rest =>
    match fmValue metadata property with
    | none => fmPropLoop env file metadata rest
    | some imagePath =>
      if imagePath = "" then fmPropLoop env file metadata rest
      else
        match env.getFirstLinkpathDest (stripWikilink imagePath) file.path with
        | none => fmPropLoop env file metadata rest
        | some imageFile =>
          match env.getResourcePath imageFile with
          | some url => some url
          | none => fmPropLoop env file metadata rest

/-- The embed fallback loop of featureImageUrl: walk the embeds in order;
an embed that fails to resolve, resolves to a non-image file, or whose
resource path throws continues, and the first resource path obtained is
returned. -/
def embedLoop (env : HostEnv) (file : TFile) : List EmbedRef → Option String
  | [] => none
  | embed :: rest =>
    match env.getFirstLinkpathDest embed.link file.path with
    | none => embedLoop env file rest
    | some embedFile =>
      if env.isImage embedFile then
        match env.getResourcePath embedFile with
        | some url => some url
        | none => embedLoop env file rest
      else embedLoop env file rest

/-- Embedding of the featureImageUrl computation of FileItem: nothing when
the feature is disabled; the own resource path of an image file; for
markdown files the frontmatter property loop and then, when the metadata
carries a non-empty embed list, the embed fallback loop; nothing
otherwise. -/
def featureImageUrl (env : HostEnv) (settings : NNSettings) (file : TFile)
    (metadata : Option FileMeta) : Option String :=
  if !settings.showFeatureImage then none
  else if env.isImage file then env.getResourcePath file
  else if file.extension = "md" then
    match fmPropLoop env file metadata settings.featureImageProperties with
    | some url => some url
    | none =>
      match metadata with
      | some m =>
        match m.embeds with
        | some embeds => if embeds.length > 0 then embedLoop env file embeds else none
        | none => none
      | none => none
  else none

/-- Feature image resolution as the claim words it: own path for an image
file, else for markdown the first configured frontmatter property whose
possibly wikilink-wrapped value resolves to a file with a resource path,
else the first embedded reference resolving to an image file with a
resource path, else nothing; every failed resolution is the absence of
that candidate. -/
def specFeatureImageUrl (env : HostEnv) (settings : NNSettings) (file : TFile)
    (metadata : Option FileMeta) : Option String :=
  if !settings.showFeatureImage then none
  else if env.isImage file then env.getResourcePath file
  else if file.extension = "md" then
    let fromFrontmatter := settings.featureImageProperties.findSome? (fun property =>
      (fmValue metadata property).bind (fun v =>
        (env.getFirstLinkpathDest (stripWikilink v) file.path).bind
          env.getResourcePath))
    let embeds := match metadata with
      | some m => m.embeds.getD []
      | none => []
    let fromEmbeds := embeds.findSome? (fun embed =>
      (env.getFirstLinkpathDest embed.link file.path).bind (fun embedFile =>
        if env.isImage embedFile then env.getResourcePath embedFile else none))
    fromFrontmatter <|> fromEmbeds
  else none

/-! ### Icon picker modal (IconPickerModal.ts) -/

/-- Split a character list at dash characters, keeping empty segments,
exactly as String.prototype.split with a dash separator does: the empty
string yields one empty segment. -/
def splitKebab : List Char → List (List Char)
  | [] => [[]]
  | c :: rest =>
    if c = '-' then [] :: splitKebab rest
    else
      match splitKebab rest with
      | [] => [[c]]
      | w :: ws => (c :: w) :: ws

/-- Upper-case the first character of a word and keep the rest, as
word.charAt(0).toUpperCase() + word.slice(1) does. -/
def capitalizeWord : List Char → List Char
  | [] => []
  | c :: cs => c.toUpper :: cs

/-- Embedding of getIconDisplayName: strip one leading lucide- namespace
prefix when present, split the kebab-case identifier at dashes, title-case
each word and join the words with single spaces. -/
def getIconDisplayName (iconId : String) : String :=
  let name :=
    if strStartsWith iconId "lucide-" then String.mk (iconId.data.drop 7) else iconId
  String.mk (List.intercalate [' '] ((splitKebab name.data).map capitalizeWord))

/-- The two tabs of the icon picker modal. -/
inductive PickerTab where
  | icons
  | emojis
deriving DecidableEq, Repr

/-- The content the modal renders into its results container. -/
inductive IconView where
  | emojiPicker (recentEmojis : List String)
  | recents (icons : List String)
  | emptyRecents
  | results (shown : List String) (more : Option Nat)
  | noResults
deriving DecidableEq, Repr

/-- Embedding of updateResults: the emoji tab renders the React emoji
picker; on the icons tab an all-whitespace search shows the recently used
icons or the empty-state message, and otherwise the catalog is filtered by
the lower-cased trimmed term against display name or raw identifier, the
first fifty matches are rendered, and a more-message reporting the total
match count is added when more than fifty icons matched. -/
def updateResults (activeTab : PickerTab)
    (allIcons recentlyUsedIcons recentlyUsedEmojis : List String)
    (searchValue : String) : IconView :=
  match activeTab with
  | .emojis => .emojiPicker recentlyUsedEmojis
  | .icons =>
    let searchTerm := strTrim (strToLower searchValue)
    if searchTerm = "" then
      if recentlyUsedIcons.length > 0 then .recents recentlyUsedIcons
      else .emptyRecents
    else
      let matchingIcons := allIcons.filter (fun iconId =>
        strIncludes (strToLower (getIconDisplayName iconId)) searchTerm ||
        strIncludes (strToLower iconId) searchTerm)
      if matchingIcons.length > 0 then
        .results (matchingIcons.take 50)
          (if matchingIcons.length > 50 then some matchingIcons.length else none)
      else .noResults

/-- The icon identifiers a view displays in its grid. -/
def shownIcons : IconView → List String
  | .recents icons => icons
  | .results shown _ => shown
  | _ => []

/-- The total-match count reported by the more-message of a view, when
that message is displayed. -/
def overflowCount : IconView → Option Nat
  | .results _ more => more
  | _ => none

/-- Embedding of the recently-used icon list built by the modal
constructor: the non-emoji entries still contained in the icon catalog. -/
def pickerRecentIcons (allIcons recentlyUsed : List String) : List String :=
  recentlyUsed.filter (fun item => !isEmojiStr item && allIcons.contains item)

/-- Embedding of the recently-used emoji list built by the modal
constructor: the entries the emoji classifier accepts. -/
def pickerRecentEmojis (recentlyUsed : List String) : List String :=
  recentlyUsed.filter (fun item => isEmojiStr item)

/-- The four arrow keys handled by the grid navigation. -/
inductive NavKey where
  | left
  | right
  | up
  | down
deriving DecidableEq, Repr

/-- Embedding of one arrow-key step of setupKeyboardNavigation over a grid
of n items in gridColumns columns with focus at currentIndex: each case
computes the tentative new index exactly as the switch does, and the final
guard refocuses only a changed index inside the bounds.  The arithmetic
guards of the source ensure every subtraction stays non-negative, so Nat
subtraction agrees with the JavaScript values. -/
def navStep (gridColumns n currentIndex : Nat) (key : NavKey) : Nat :=
  let newIndex : Nat :=
    match key with
    | .left =>
      if currentIndex % gridColumns > 0 then currentIndex - 1 else currentIndex
    | .right =>
      if currentIndex % gridColumns < gridColumns - 1 ∧ currentIndex < n - 1 then
        currentIndex + 1
      else currentIndex
    | .up =>
      if currentIndex ≥ gridColumns then currentIndex - gridColumns else currentIndex
    | .down =>
      if currentIndex + gridColumns < n then currentIndex + gridColumns
      else currentIndex
  if newIndex ≠ currentIndex ∧ newIndex < n then newIndex else currentIndex

/-- The two item kinds the modal can assign an icon to. -/
inductive IconItemType where
  | folder
  | tag
deriving DecidableEq, Repr

/-- The entry points of the external metadata service. -/
inductive AssignCall where
  | setFolderIcon
  | setTagIcon
deriving DecidableEq, Repr

/-- How the awaited metadata-assignment promise settles. -/
inductive AssignOutcome where
  | resolved
  | rejected
deriving DecidableEq, Repr

/-- Observable events of one selectIcon run. -/
inductive PickerEvent where
  | assignStart (call : AssignCall)
  | assignSettled (outcome : AssignOutcome)
  | chooseCallback
  | closeModal
deriving DecidableEq, Repr

/-- Embedding of selectIcon as its event trace: the metadata-assignment
entry point selected by the item type is called and awaited; when the
promise resolves the callback is notified and the modal closed, and when
it rejects the exception propagates out of the async function before
either of those statements runs. -/
def selectIconTrace (itemType : IconItemType) (outcome : AssignOutcome) :
    List PickerEvent :=
  let call : AssignCall :=
    match itemType with
    | .tag => .setTagIcon
    | .folder => .setFolderIcon
  [.assignStart call, .assignSettled outcome] ++
    (match outcome with
     | .resolved => [.chooseCallback, .closeModal]
     | .rejected => [])

/-! ### Emoji picker input (EmojiPicker.tsx) -/

/-- The UTF-16 code units of one code point: one unit below 0x10000 and a
surrogate pair above. -/
def charUtf16 (c : Char) : List Nat :=
  if c.toNat < 0x10000 then [c.toNat]
  else
    [0xD800 + (c.toNat - 0x10000) / 0x400,
     0xDC00 + (c.toNat - 0x10000) % 0x400]

/-- The UTF-16 code-unit sequence of a string, which is what a JavaScript
string value is. -/
def strUtf16 (s : String) : List Nat :=
  (s.data.map charUtf16).flatten

/-- Decode a UTF-16 code-unit sequence back into code points, pairing
matched surrogates. -/
def utf16Decode : List Nat → List Char
  | [] => []
  | u :: v :: rest =>
    if 0xD800 ≤ u ∧ u ≤ 0xDBFF then
      if 0xDC00 ≤ v ∧ v ≤ 0xDFFF then
        Char.ofNat (0x10000 + (u - 0xD800) * 0x400 + (v - 0xDC00)) :: utf16Decode rest
      else Char.ofNat u :: utf16Decode (v :: rest)
    else Char.ofNat u :: utf16Decode (v :: rest)
  | [u] => [Char.ofNat u]

/-- The slice length handleInputChange computes: the spread of the input
string lists its code points, so the length of its first element is the
UTF-16 unit count of the first code point, and zero for an empty input. -/
def jsHeadUnits (value : String) : Nat :=
  match value.data with
  | [] => 0
  | c :: _ => (charUtf16 c).length

/-- Embedding of handleInputChange of EmojiPicker: the retained input is
value.slice(0, n) over UTF-16 code units, where n is the unit count of the
first code point of the value. -/
def handleInputChange (value : String) : String :=
  String.mk (utf16Decode ((strUtf16 value).take (jsHeadUnits value)))

/-- Embedding of handleSubmit of EmojiPicker: the selection callback is
invoked with the current input exactly when that input is truthy
(non-empty) and classifies as an emoji. -/
def handleSubmit (inputValue : String) : Option String :=
  if inputValue ≠ "" ∧ isEmojiStr inputValue then some inputValue else none

/-! ### FileItem memoization (FileItem.tsx) -/

/-- The props of the memoized FileItem compared by its equality function.
The click handler is compared by reference in the source; handler identity
is modelled as a number.  Optional props are modelled as options. -/
structure FileItemProps where
  file : TFile
  isSelected : Bool
  hasSelectedAbove : Option Bool
  hasSelectedBelow : Option Bool
  onClick : Nat
  dateGroup : Option String
  formattedDate : Option String
  parentFolder : Option String
deriving DecidableEq, Repr

/-- Embedding of the memo comparator of FileItem: props count as equal
exactly when every one of the ten compared values is unchanged. -/
def arePropsEqual (prevProps nextProps : FileItemProps) : Bool :=
  prevProps.file.path == nextProps.file.path &&
  prevProps.file.name == nextProps.file.name &&
  prevProps.file.stat.mtime == nextProps.file.stat.mtime &&
  prevProps.isSelected == nextProps.isSelected &&
  prevProps.hasSelectedAbove == nextProps.hasSelectedAbove &&
  prevProps.hasSelectedBelow == nextProps.hasSelectedBelow &&
  prevProps.dateGroup == nextProps.dateGroup &&
  prevProps.onClick == nextProps.onClick &&
  prevProps.formattedDate == nextProps.formattedDate &&
  prevProps.parentFolder == nextProps.parentFolder

/-- React.memo re-renders exactly when the comparator reports unequal
props. -/
def fileItemRerenders (prevProps nextProps : FileItemProps) : Bool :=
  !arePropsEqual prevProps nextProps

/-- The set of inputs the claim lists as re-render triggers: file path,
file name, modification time, the three selection flags, date-group key,
click-handler reference and formatted-date value.  The parent-folder prop
is not in this list. -/
def claimListedEqual (prevProps nextProps : FileItemProps) : Bool :=
  prevProps.file.path == nextProps.file.path &&
  prevProps.file.name == nextProps.file.name &&
  prevProps.file.stat.mtime == nextProps.file.stat.mtime &&
  prevProps.isSelected == nextProps.isSelected &&
  prevProps.hasSelectedAbove == nextProps.hasSelectedAbove &&
  prevProps.hasSelectedBelow == nextProps.hasSelectedBelow &&
  prevProps.dateGroup == nextProps.dateGroup &&
  prevProps.onClick == nextProps.onClick &&
  prevProps.formattedDate == nextProps.formattedDate

/-! ### Theorems -/

/-- C1 counterexample: with a tag override recorded under the empty tag
name, a tag selection carrying that empty name and a different global
default, the claim predicts the override but getEffectiveSortOption
returns the default, because the JavaScript truthiness guard on the
selected tag rejects the empty string. -/
theorem c1_counterexample :
    getEffectiveSortOption
        ⟨.modifiedDesc, none, some [("", .modifiedAsc)], false, []⟩
        .tag none (some "") = .modifiedDesc ∧
    overrideLookup (some [("", SortOption.modifiedAsc)]) "" = some .modifiedAsc ∧
    specEffectiveSortOption
        ⟨.modifiedDesc, none, some [("", .modifiedAsc)], false, []⟩
        .tag none (some "") = .modifiedAsc := by
  decide

/-- C1 (amended): for every settings object, selection type, selected
folder and selected tag whose name is not the empty string,
getEffectiveSortOption returns the folder override when the selection is a
folder and an override exists for its path, otherwise the tag override
when the selection is a tag and an override exists for its name, otherwise
the global default; being a Lean function, it has no side effects. -/
theorem c1_effective_sort_amended (settings : NNSettings)
    (selectionType : NavItemType) (selectedFolder : Option TFolder)
    (selectedTag : Option String) (h : selectedTag ≠ some "") :
    getEffectiveSortOption settings selectionType selectedFolder selectedTag =
      specEffectiveSortOption settings selectionType selectedFolder selectedTag := by
  unfold getEffectiveSortOption specEffectiveSortOption
  cases selectionType <;> cases selectedFolder <;> cases selectedTag <;>
    simp_all

/-- C1 witness: the amended theorem applied to a concrete tag selection
with a non-empty name and an override present for it. -/
theorem c1_witness :
    (some "projects" ≠ some "") ∧
    getEffectiveSortOption
        ⟨.modifiedDesc, none, some [("projects", .titleAsc)], false, []⟩
        .tag none (some "projects") =
      specEffectiveSortOption
        ⟨.modifiedDesc, none, some [("projects", .titleAsc)], false, []⟩
        .tag none (some "projects") :=
  ⟨by decide, c1_effective_sort_amended _ _ _ _ (by decide)⟩

/-- C7: the emoji classifier accepts a string containing a known emoji
code point, rejects a plain ASCII letter, rejects the empty string and
rejects a non-string value, and acceptance is exactly membership of some
character of the string in the fixed code-point ranges. -/
theorem c7_emoji_classifier :
    isEmoji (.str "🎨") = true ∧
    isEmoji (.str "a") = false ∧
    isEmoji (.str "") = false ∧
    isEmoji .nonString = false ∧
    (∀ s : String,
      isEmoji (.str s) = true ↔ s ≠ "" ∧ ∃ c ∈ s.data, inEmojiRange c.toNat = true) := by
  refine ⟨by decide, by decide, by decide, rfl, ?_⟩
  intro s
  unfold isEmoji emojiRegexTest
  by_cases h : s = "" <;> simp [h, List.any_eq_true]

/-- C8 counterexample: two prop records identical in every input the claim
lists but with different parent-folder props; the claim says such a change
is ignored, yet the comparator reports the props unequal, so the memoized
component re-renders. -/
theorem c8_counterexample :
    claimListedEqual
        ⟨⟨"a.md", "a.md", "a", "md", ⟨0, 0⟩⟩, false, none, none, 0, none, none, some "x"⟩
        ⟨⟨"a.md", "a.md", "a", "md", ⟨0, 0⟩⟩, false, none, none, 0, none, none, some "y"⟩
      = true ∧
    fileItemRerenders
        ⟨⟨"a.md", "a.md", "a", "md", ⟨0, 0⟩⟩, false, none, none, 0, none, none, some "x"⟩
        ⟨⟨"a.md", "a.md", "a", "md", ⟨0, 0⟩⟩, false, none, none, 0, none, none, some "y"⟩
      = true := by
  decide

/-- C8 (amended): the memoized FileItem re-renders exactly when one of
file path, file name, file modification time, the three selection flags,
date-group key, click-handler reference, formatted-date value or the
parent-folder prop changed; every other change is ignored. -/
theorem c8_memo_amended (prevProps nextProps : FileItemProps) :
    fileItemRerenders prevProps nextProps = false ↔
      (prevProps.file.path = nextProps.file.path ∧
       prevProps.file.name = nextProps.file.name ∧
       prevProps.file.stat.mtime = nextProps.file.stat.mtime ∧
       prevProps.isSelected = nextProps.isSelected ∧
       prevProps.hasSelectedAbove = nextProps.hasSelectedAbove ∧
       prevProps.hasSelectedBelow = nextProps.hasSelectedBelow ∧
       prevProps.dateGroup = nextProps.dateGroup ∧
       prevProps.onClick = nextProps.onClick ∧
       prevProps.formattedDate = nextProps.formattedDate ∧
       prevProps.parentFolder = nextProps.parentFolder) := by
  simp [fileItemRerenders, arePropsEqual, and_assoc]

/-- C6: the constructor partition of the recently-used list.  The emoji
recency list holds exactly the entries the classifier accepts, the icon
recency list holds exactly the non-emoji entries still present in the
catalog, the two lists are disjoint, and a non-emoji entry absent from the
catalog lands in neither list. -/
theorem c6_recent_partition (allIcons recentlyUsed : List String) :
    (∀ x, x ∈ pickerRecentEmojis recentlyUsed ↔
      x ∈ recentlyUsed ∧ isEmojiStr x = true) ∧
    (∀ x, x ∈ pickerRecentIcons allIcons recentlyUsed ↔
      x ∈ recentlyUsed ∧ isEmojiStr x = false ∧ x ∈ allIcons) ∧
    (∀ x, ¬(x ∈ pickerRecentIcons allIcons recentlyUsed ∧
      x ∈ pickerRecentEmojis recentlyUsed)) ∧
    (∀ x, x ∈ recentlyUsed → isEmojiStr x = false → x ∉ allIcons →
      x ∉ pickerRecentIcons allIcons recentlyUsed ∧
      x ∉ pickerRecentEmojis recentlyUsed) := by
  refine ⟨fun x => ?_, fun x => ?_, fun x => ?_, fun x hx hne hcat => ⟨?_, ?_⟩⟩ <;>
    simp [pickerRecentIcons, pickerRecentEmojis, List.mem_filter, List.elem_iff] <;>
    tauto

/-- C6 witness: the partition theorem applied to a concrete recently-used
list containing an emoji, a live icon and a stale identifier. -/
theorem c6_witness :
    ("gone" ∈ (["🎨", "folder", "gone"] : List String)) ∧
    isEmojiStr "gone" = false ∧
    "gone" ∉ (["folder", "file"] : List String) ∧
    ("gone" ∉ pickerRecentIcons ["folder", "file"] ["🎨", "folder", "gone"] ∧
     "gone" ∉ pickerRecentEmojis ["🎨", "folder", "gone"]) :=
  ⟨by decide, by decide, by decide,
    (c6_recent_partition ["folder", "file"] ["🎨", "folder", "gone"]).2.2.2 "gone"
      (by decide) (by decide) (by decide)⟩

/-- C5: grid keyboard navigation stays inside the item bounds.  For every
column count, item count and in-bounds focus index, each arrow-key step
lands inside the bounds again; down and up move one full column count and
leave the focus unchanged when the target would fall outside, left moves
one cell only inside the row, and right moves one cell only inside the row
and the item count. -/
theorem c5_grid_navigation (gridColumns n i : Nat) (key : NavKey)
    (hc : 0 < gridColumns) (hi : i < n) :
    navStep gridColumns n i key < n ∧
    navStep gridColumns n i .down = (if i + gridColumns < n then i + gridColumns else i) ∧
    navStep gridColumns n i .up = (if gridColumns ≤ i then i - gridColumns else i) ∧
    navStep gridColumns n i .left = (if 0 < i % gridColumns then i - 1 else i) ∧
    navStep gridColumns n i .right =
      (if i % gridColumns < gridColumns - 1 ∧ i + 1 < n then i + 1 else i) := by
  have h1 : i % gridColumns ≤ i := Nat.mod_le i gridColumns
  have h2 : i % gridColumns < gridColumns := Nat.mod_lt i hc
  cases key <;>
    (simp only [navStep];
     refine ⟨?_, ?_, ?_, ?_, ?_⟩ <;> split_ifs <;> omega)

/-- C5 witness: the theorem applied to the 5-column 12-item grid of the
claim, together with the concrete chain of down-steps 0, 5, 10, 10. -/
theorem c5_witness :
    ((0 : Nat) < 5 ∧ (10 : Nat) < 12) ∧
    navStep 5 12 10 .down < 12 ∧
    navStep 5 12 0 .down = 5 ∧
    navStep 5 12 5 .down = 10 ∧
    navStep 5 12 10 .down = 10 :=
  ⟨⟨by decide, by decide⟩,
    (c5_grid_navigation 5 12 10 .down (by decide) (by decide)).1,
    by decide, by decide, by decide⟩

/-- C9: in every selectIcon run, the first event is the metadata-service
call selected by the item type (setTagIcon for a tag, setFolderIcon
otherwise), every occurrence of the modal close comes strictly after the
settling of the awaited assignment, and when the assignment resolves the
modal does close. -/
theorem c9_select_icon_sequencing (itemType : IconItemType)
    (outcome : AssignOutcome) :
    (selectIconTrace itemType outcome)[0]? =
      some (.assignStart (match itemType with
        | .tag => .setTagIcon
        | .folder => .setFolderIcon)) ∧
    (∀ i j : Nat,
      (selectIconTrace itemType outcome)[i]? = some (.assignSettled outcome) →
      (selectIconTrace itemType outcome)[j]? = some .closeModal → i < j) ∧
    (outcome = .resolved →
      PickerEvent.closeModal ∈ selectIconTrace itemType outcome) := by
  refine ⟨?_, ?_, ?_⟩
  · cases itemType <;> cases outcome <;> rfl
  · intro i j hi hj
    cases itemType <;> cases outcome <;>
      (rcases i with _ | _ | _ | _ | i <;> rcases j with _ | _ | _ | _ | j <;>
        simp_all [selectIconTrace])
  · intro h
    subst h
    cases itemType <;> decide

/-- C9 witness: the sequencing theorem applied to a folder selection whose
assignment resolves; the settle event sits at index one and the close
event at index three. -/
theorem c9_witness :
    (selectIconTrace .folder .resolved)[1]? =
      some (.assignSettled .resolved) ∧
    (selectIconTrace .folder .resolved)[3]? = some .closeModal ∧
    (1 : Nat) < 3 ∧
    PickerEvent.closeModal ∈ selectIconTrace IconItemType.folder AssignOutcome.resolved :=
  ⟨by decide, by decide,
    (c9_select_icon_sequencing .folder .resolved).2.1 1 3 (by decide) (by decide),
    (c9_select_icon_sequencing .folder .resolved).2.2 rfl⟩

/-- The search term the icons tab derives from the raw input: lower-cased
and trimmed. -/
def iconSearchTerm (searchValue : String) : String :=
  strTrim (strToLower searchValue)

/-- The matching icons as the claim words them: the catalog entries whose
raw identifier or derived display name contains the term, both sides
lower-cased. -/
def specIconMatches (allIcons : List String) (term : String) : List String :=
  allIcons.filter (fun iconId =>
    strIncludes (strToLower iconId) term ||
    strIncludes (strToLower (getIconDisplayName iconId)) term)

/-- C4: for every catalog and every search input whose derived term is
non-empty, the icons tab shows exactly the first fifty icons matching the
term case-insensitively against raw identifier or derived display name,
never shows more than fifty entries, and reports the true total match
count in the overflow message exactly when more than fifty icons match. -/
theorem c4_icon_search (allIcons recentlyUsedIcons recentlyUsedEmojis : List String)
    (searchValue : String) (h : iconSearchTerm searchValue ≠ "") :
    shownIcons (updateResults .icons allIcons recentlyUsedIcons recentlyUsedEmojis
        searchValue) =
      (specIconMatches allIcons (iconSearchTerm searchValue)).take 50 ∧
    (shownIcons (updateResults .icons allIcons recentlyUsedIcons recentlyUsedEmojis
        searchValue)).length ≤ 50 ∧
    overflowCount (updateResults .icons allIcons recentlyUsedIcons recentlyUsedEmojis
        searchValue) =
      (if 50 < (specIconMatches allIcons (iconSearchTerm searchValue)).length then
        some (specIconMatches allIcons (iconSearchTerm searchValue)).length
      else none) := by
  have hm : allIcons.filter (fun iconId =>
      strIncludes (strToLower (getIconDisplayName iconId)) (iconSearchTerm searchValue) ||
      strIncludes (strToLower iconId) (iconSearchTerm searchValue)) =
      specIconMatches allIcons (iconSearchTerm searchValue) :=
    List.filter_congr (fun x _ => Bool.or_comm _ _)
  unfold updateResults
  rw [if_neg (by exact h)]
  rw [show strTrim (strToLower searchValue) = iconSearchTerm searchValue from rfl] at *
  rw [hm]
  by_cases hp : 0 < (specIconMatches allIcons (iconSearchTerm searchValue)).length
  · rw [if_pos hp]
    refine ⟨rfl, List.length_take_le _ _, ?_⟩
    simp only [overflowCount]
  · rw [if_neg hp]
    have : specIconMatches allIcons (iconSearchTerm searchValue) = [] := by
      cases hq : specIconMatches allIcons (iconSearchTerm searchValue) <;> simp_all
    rw [this]
    exact ⟨rfl, by simp [shownIcons], by simp [overflowCount]⟩

/-- C4 witness: the search theorem applied to a small catalog and the
upper-case input Fold, which matches the folder icons through both the raw
identifier and the display name. -/
theorem c4_witness :
    iconSearchTerm "Fold" ≠ "" ∧
    shownIcons (updateResults .icons ["lucide-folder-open", "lucide-file"] [] [] "Fold") =
      (specIconMatches ["lucide-folder-open", "lucide-file"]
        (iconSearchTerm "Fold")).take 50 ∧
    specIconMatches ["lucide-folder-open", "lucide-file"] (iconSearchTerm "Fold") =
      ["lucide-folder-open"] :=
  ⟨by decide,
    (c4_icon_search ["lucide-folder-open", "lucide-file"] [] [] "Fold" (by decide)).1,
    by decide⟩

/-- Decoding one basic-multilingual-plane unit yields one character. -/
theorem utf16Decode_single (u : Nat) : utf16Decode [u] = [Char.ofNat u] := by
  simp only [utf16Decode]

/-- Decoding a surrogate pair yields the combined code point. -/
theorem utf16Decode_pair (q r : Nat) (hq : q < 0x400) (hr : r < 0x400)
    (rest : List Nat) :
    utf16Decode ((0xD800 + q) :: (0xDC00 + r) :: rest) =
      Char.ofNat (0x10000 + q * 0x400 + r) :: utf16Decode rest := by
  simp only [utf16Decode]
  rw [if_pos (by omega), if_pos (by omega)]
  have e1 : 0xD800 + q - 0xD800 = q := by omega
  have e2 : 0xDC00 + r - 0xDC00 = r := by omega
  rw [e1, e2]

/-- Decoding re-inverts the encoding of one character. -/
theorem utf16Decode_charUtf16 (c : Char) (rest : List Nat) :
    utf16Decode (charUtf16 c ++ rest) = c :: utf16Decode rest := by
  unfold charUtf16
  by_cases h : c.toNat < 0x10000
  · rw [if_pos h]
    cases rest with
    | nil =>
      simp only [List.cons_append, List.nil_append, utf16Decode_single,
        Char.ofNat_toNat]
      simp [utf16Decode]
    | cons v vs =>
      have hlow : c.toNat < 0xD800 ∨ 0xDFFF < c.toNat := by
        have hv := c.valid
        simp only [UInt32.isValidChar, Nat.isValidChar] at hv
        have : Char.toNat c = c.val.toNat := rfl
        omega
      simp only [List.cons_append, List.nil_append, utf16Decode]
      rw [if_neg (by omega), Char.ofNat_toNat]
  · rw [if_neg h]
    have hval : c.toNat < 0x110000 := by
      have hv := c.valid
      simp only [UInt32.isValidChar, Nat.isValidChar] at hv
      have : Char.toNat c = c.val.toNat := rfl
      omega
    have hq : (c.toNat - 0x10000) / 0x400 < 0x400 := by omega
    have hr : (c.toNat - 0x10000) % 0x400 < 0x400 := by omega
    rw [List.cons_append, List.cons_append, List.nil_append,
      utf16Decode_pair _ _ hq hr]
    have e3 : 0x10000 + (c.toNat - 0x10000) / 0x400 * 0x400 +
        (c.toNat - 0x10000) % 0x400 = c.toNat := by omega
    rw [e3, Char.ofNat_toNat]

/-- C10: the emoji input handler retains exactly the first code point of
the typed or pasted value (and nothing for an empty value), so the
retained value never exceeds one code point, and the submit handler
invokes the selection callback only with a non-empty retained value that
classifies as an emoji, which is therefore exactly one code point. -/
theorem c10_emoji_input (value : String) :
    handleInputChange value =
      (match value.data with
       | [] => ""
       | c :: _ => String.mk [c]) ∧
    (handleInputChange value).data.length ≤ 1 ∧
    (∀ e, handleSubmit (handleInputChange value) = some e →
      e = handleInputChange value ∧ e ≠ "" ∧ isEmojiStr e = true ∧
      e.data.length = 1) := by
  have hempty : ("" : String).data = [] := rfl
  have hfirst : handleInputChange value =
      (match value.data with
       | [] => ""
       | c :: _ => String.mk [c]) := by
    unfold handleInputChange strUtf16 jsHeadUnits
    cases hv : value.data with
    | nil => simp [utf16Decode]
    | cons c rest =>
      simp only [List.map_cons, List.flatten_cons, List.take_left]
      have hdec := utf16Decode_charUtf16 c []
      rw [List.append_nil] at hdec
      rw [hdec]
      simp [utf16Decode]
  have hlen : (handleInputChange value).data.length ≤ 1 := by
    rw [hfirst]
    cases value.data <;> simp [hempty]
  refine ⟨hfirst, hlen, ?_⟩
  intro e he
  unfold handleSubmit at he
  split at he
  · rename_i hcond
    cases he
    refine ⟨rfl, hcond.1, hcond.2, ?_⟩
    have hne : (handleInputChange value).data ≠ [] := by
      intro hd
      exact hcond.1 (String.ext hd)
    cases hd : (handleInputChange value).data with
    | nil => exact absurd hd hne
    | cons c rest =>
      have := hlen
      rw [hd] at this
      simp at this
      simp [hd, this]
  · exact absurd he (by simp)

/-- C10 witness: a paste of an emoji followed by further text is truncated
to the emoji alone, which submits successfully as one code point. -/
theorem c10_witness :
    handleSubmit (handleInputChange "🎨x") = some "🎨" ∧
    ("🎨" : String) = handleInputChange "🎨x" ∧
    ("🎨" : String) ≠ "" ∧ isEmojiStr "🎨" = true ∧
    ("🎨" : String).data.length = 1 :=
  ⟨by decide,
    ((c10_emoji_input "🎨x").2.2 "🎨" (by decide)).1,
    ((c10_emoji_input "🎨x").2.2 "🎨" (by decide)).2.1,
    ((c10_emoji_input "🎨x").2.2 "🎨" (by decide)).2.2.1,
    ((c10_emoji_input "🎨x").2.2 "🎨" (by decide)).2.2.2⟩

/-- The non-positivity of the localeCompare model is the non-strict string
order. -/
theorem localeCompareModel_le (a b : String) :
    localeCompareModel a b ≤ 0 ↔ a ≤ b := by
  unfold localeCompareModel
  split_ifs with h1 h2
  · simp [le_of_lt h1]
  · simp [h2]
  · have hba : b < a := lt_of_le_of_ne (le_of_not_lt h1) (fun e => h2 e.symm)
    have hn1 : ¬((1 : Int) ≤ 0) := by norm_num
    have hn2 : ¬(a ≤ b) := not_le.mpr hba
    tauto

/-- The comparator of sortFiles agrees with the order declared by the
(field, direction) pair of its sort option. -/
theorem sortLeB_iff (ts : TFile → TsKind → Int) (opt : SortOption) (a b : TFile) :
    sortLeB ts opt a b = true ↔ fileKeyLe ts opt a b := by
  cases opt <;> simp only [sortLeB, fileKeyLe, decide_eq_true_eq] <;>
    first
      | omega
      | exact localeCompareModel_le _ _

/-- A stable sort under a descending key comparator is the reverse of the
stable sort under the ascending key comparator whenever the keys of the
list are pairwise distinct. -/
theorem insertionSortKeyReverse {β : Type} [LinearOrder β] (key : TFile → β)
    (r1 r2 : TFile → TFile → Prop) [DecidableRel r1] [DecidableRel r2]
    (h1 : ∀ a b, r1 a b ↔ key a ≤ key b) (h2 : ∀ a b, r2 a b ↔ key b ≤ key a)
    (l : List TFile) (hd : l.Pairwise (fun a b => key a ≠ key b)) :
    List.insertionSort r2 l = (List.insertionSort r1 l).reverse := by
  haveI : IsTotal TFile r1 := ⟨fun a b => by rw [h1, h1]; exact le_total _ _⟩
  haveI : IsTrans TFile r1 :=
    ⟨fun a b c hab hbc => by
      rw [h1] at hab hbc ⊢; exact le_trans hab hbc⟩
  haveI : IsTotal TFile r2 := ⟨fun a b => by rw [h2, h2]; exact le_total _ _⟩
  haveI : IsTrans TFile r2 :=
    ⟨fun a b c hab hbc => by
      rw [h2] at hab hbc ⊢; exact le_trans hbc hab⟩
  have p1 := List.perm_insertionSort r1 l
  have p2 := List.perm_insertionSort r2 l
  have s1 := List.sorted_insertionSort r1 l
  have s2 := List.sorted_insertionSort r2 l
  have d1 : (List.insertionSort r1 l).Pairwise (fun a b => key a ≠ key b) :=
    (List.Perm.pairwise_iff (fun h => Ne.symm h) p1).mpr hd
  have d2 : (List.insertionSort r2 l).Pairwise (fun a b => key a ≠ key b) :=
    (List.Perm.pairwise_iff (fun h => Ne.symm h) p2).mpr hd
  have strict2 : (List.insertionSort r2 l).Pairwise (fun a b => key b < key a) :=
    (List.Pairwise.and s2 d2).imp
      (fun hab => lt_of_le_of_ne ((h2 _ _).1 hab.1) (Ne.symm hab.2))
  have strictRev :
      ((List.insertionSort r1 l).reverse).Pairwise (fun a b => key b < key a) := by
    rw [List.pairwise_reverse]
    exact (List.Pairwise.and s1 d1).imp
      (fun hab => lt_of_le_of_ne ((h1 _ _).1 hab.1) hab.2)
  have perm12 : (List.insertionSort r2 l).Perm ((List.insertionSort r1 l).reverse) :=
    p2.trans (p1.symm.trans (List.reverse_perm _).symm)
  haveI : IsAntisymm TFile (fun a b => key b < key a) :=
    ⟨fun a b hab hba => absurd (lt_trans hab hba) (lt_irrefl _)⟩
  exact List.eq_of_perm_of_sorted perm12 strict2 strictRev

/-- C2 (amended): for every timestamp source and file list, each of the
six comparators permutes the list and orders it consistently with its
declared (field, direction) pair, and for each field the descending output
is exactly the reverse of the ascending output whenever the key values of
that field are pairwise distinct in the list; with tied keys the stable
sort preserves input order in both directions, so the outputs need not be
reverses. -/
theorem c2_sort_amended (ts : TFile → TsKind → Int) (files : List TFile) :
    (∀ opt : SortOption, (sortFiles ts opt files).Perm files ∧
      (sortFiles ts opt files).Pairwise (fileKeyLe ts opt)) ∧
    (files.Pairwise (fun a b => ts a .modified ≠ ts b .modified) →
      sortFiles ts .modifiedDesc files = (sortFiles ts .modifiedAsc files).reverse) ∧
    (files.Pairwise (fun a b => ts a .created ≠ ts b .created) →
      sortFiles ts .createdDesc files = (sortFiles ts .createdAsc files).reverse) ∧
    (files.Pairwise (fun a b => a.basename ≠ b.basename) →
      sortFiles ts .titleDesc files = (sortFiles ts .titleAsc files).reverse) := by
  refine ⟨fun opt => ⟨List.perm_insertionSort _ files, ?_⟩, ?_, ?_, ?_⟩
  · haveI : IsTotal TFile (fun a b => sortLeB ts opt a b = true) :=
      ⟨fun a b => by
        rw [sortLeB_iff, sortLeB_iff]
        cases opt <;> simp only [fileKeyLe] <;> exact le_total _ _⟩
    haveI : IsTrans TFile (fun a b => sortLeB ts opt a b = true) :=
      ⟨fun a b c hab hbc => by
        rw [sortLeB_iff] at hab hbc ⊢
        cases opt <;> simp only [fileKeyLe] at hab hbc ⊢ <;>
          first
            | exact le_trans hab hbc
            | exact le_trans hbc hab⟩
    exact (List.sorted_insertionSort _ files).imp
      (fun h => (sortLeB_iff ts opt _ _).1 h)
  · intro hd
    exact insertionSortKeyReverse (fun f => ts f .modified)
      (fun a b => sortLeB ts .modifiedAsc a b = true)
      (fun a b => sortLeB ts .modifiedDesc a b = true)
      (fun a b => sortLeB_iff ts .modifiedAsc a b)
      (fun a b => sortLeB_iff ts .modifiedDesc a b)
      files hd
  · intro hd
    exact insertionSortKeyReverse (fun f => ts f .created)
      (fun a b => sortLeB ts .createdAsc a b = true)
      (fun a b => sortLeB ts .createdDesc a b = true)
      (fun a b => sortLeB_iff ts .createdAsc a b)
      (fun a b => sortLeB_iff ts .createdDesc a b)
      files hd
  · intro hd
    exact insertionSortKeyReverse (fun f => f.basename)
      (fun a b => sortLeB ts .titleAsc a b = true)
      (fun a b => sortLeB ts .titleDesc a b = true)
      (fun a b => sortLeB_iff ts .titleAsc a b)
      (fun a b => sortLeB_iff ts .titleDesc a b)
      files hd

/-- The timestamp source reading the raw file stat fields: the behavior of
DateUtils.getFileTimestamp when no frontmatter date substitutes. -/
def tsStat (f : TFile) (k : TsKind) : Int :=
  match k with
  | .modified => f.stat.mtime
  | .created => f.stat.ctime

/-- C2 counterexample: two distinct files with equal modification times.
The stable sort leaves both orders equal to the input order, so the
descending output is not the reverse of the ascending output, refuting the
reversal claim for arbitrary file lists. -/
theorem c2_counterexample :
    sortFiles tsStat .modifiedDesc
        [⟨"a.md", "a.md", "a", "md", ⟨0, 5⟩⟩, ⟨"b.md", "b.md", "b", "md", ⟨0, 5⟩⟩] ≠
      (sortFiles tsStat .modifiedAsc
        [⟨"a.md", "a.md", "a", "md", ⟨0, 5⟩⟩, ⟨"b.md", "b.md", "b", "md", ⟨0, 5⟩⟩]).reverse := by
  decide

/-- C2 witness: the amended theorem applied to two files with distinct
modification times. -/
theorem c2_witness :
    ([⟨"a.md", "a.md", "a", "md", ⟨0, 1⟩⟩,
      ⟨"b.md", "b.md", "b", "md", ⟨0, 2⟩⟩] : List TFile).Pairwise
      (fun a b => tsStat a .modified ≠ tsStat b .modified) ∧
    sortFiles tsStat .modifiedDesc
        [⟨"a.md", "a.md", "a", "md", ⟨0, 1⟩⟩, ⟨"b.md", "b.md", "b", "md", ⟨0, 2⟩⟩] =
      (sortFiles tsStat .modifiedAsc
        [⟨"a.md", "a.md", "a", "md", ⟨0, 1⟩⟩,
         ⟨"b.md", "b.md", "b", "md", ⟨0, 2⟩⟩]).reverse :=
  ⟨by decide,
    (c2_sort_amended tsStat
      [⟨"a.md", "a.md", "a", "md", ⟨0, 1⟩⟩,
       ⟨"b.md", "b.md", "b", "md", ⟨0, 2⟩⟩]).2.1 (by decide)⟩

/-- The frontmatter property loop is the first-success search over the
declarative per-property candidate, provided the host resolver never
resolves the empty link path (the truthiness skip of the loop then agrees
with the failing resolution of the empty value). -/
theorem fmPropLoop_eq (env : HostEnv) (file : TFile) (metadata : Option FileMeta)
    (h : ∀ p, env.getFirstLinkpathDest "" p = none) (props : List String) :
    fmPropLoop env file metadata props =
      props.findSome? (fun property =>
        (fmValue metadata property).bind (fun v =>
          (env.getFirstLinkpathDest (stripWikilink v) file.path).bind
            env.getResourcePath)) := by
  induction props with
  | nil => rfl
  | cons p rest ih =>
    rw [List.findSome?_cons]
    simp only [fmPropLoop]
    cases hv : fmValue metadata p with
    | none => simp [ih]
    | some v =>
      by_cases he : v = ""
      · subst he
        have hw : stripWikilink "" = "" := rfl
        simp [hw, h, ih]
      · cases hr : env.getFirstLinkpathDest (stripWikilink v) file.path with
        | none => simp [he, hr, ih]
        | some f2 =>
          cases hrp : env.getResourcePath f2 with
          | none => simp [he, hr, hrp, ih]
          | some url => simp [he, hr, hrp]

/-- The embed fallback loop is the first-success search over the
declarative per-embed candidate. -/
theorem embedLoop_eq (env : HostEnv) (file : TFile) (embeds : List EmbedRef) :
    embedLoop env file embeds =
      embeds.findSome? (fun embed =>
        (env.getFirstLinkpathDest embed.link file.path).bind (fun embedFile =>
          if env.isImage embedFile then env.getResourcePath embedFile
          else none)) := by
  induction embeds with
  | nil => rfl
  | cons e rest ih =>
    rw [List.findSome?_cons]
    simp only [embedLoop]
    cases hr : env.getFirstLinkpathDest e.link file.path with
    | none => simp [ih]
    | some f2 =>
      cases hi : env.isImage f2 with
      | true =>
        cases hrp : env.getResourcePath f2 with
        | none => simp [hr, hi, hrp, ih]
        | some url => simp [hr, hi, hrp]
      | false => simp [hr, hi, ih]

/-- C3: for every host environment whose link resolver rejects the empty
link path, every settings object, file and metadata snapshot, the
featureImageUrl computation equals the declarative priority resolution the
claim describes: own resource path for an image file, else for markdown
the first configured frontmatter property whose possibly wikilink-wrapped
value resolves to a file with a resource path, else the first embedded
reference resolving to an image file with a resource path, else no image,
with every resolution failure counting as absence of that candidate. -/
theorem c3_feature_image (env : HostEnv) (settings : NNSettings) (file : TFile)
    (metadata : Option FileMeta)
    (h : ∀ p, env.getFirstLinkpathDest "" p = none) :
    featureImageUrl env settings file metadata =
      specFeatureImageUrl env settings file metadata := by
  unfold featureImageUrl specFeatureImageUrl
  split_ifs with h1 h2 h3
  · rfl
  · rfl
  · rw [fmPropLoop_eq env file metadata h]
    cases hfm : settings.featureImageProperties.findSome? (fun property =>
        (fmValue metadata property).bind (fun v =>
          (env.getFirstLinkpathDest (stripWikilink v) file.path).bind
            env.getResourcePath)) with
    | some url => simp
    | none =>
      simp only [Option.none_orElse]
      cases metadata with
      | none => rfl
      | some m =>
        cases hm : m.embeds with
        | none => simp [hm]
        | some embeds =>
          by_cases hlen : embeds.length > 0
          · simp [hm, hlen, embedLoop_eq]
          · have hnil : embeds = [] := by cases embeds <;> simp_all
            simp [hm, hlen, hnil]
  · rfl

/-- A concrete image file of the demonstration vault. -/
def demoImgFile : TFile := ⟨"img.png", "img.png", "img", "png", ⟨0, 0⟩⟩

/-- A concrete host environment: png files are images, the image file has
a resource path, and only the link path img resolves. -/
def demoEnv : HostEnv :=
  ⟨fun f => f.extension == "png",
   fun f => if f.path == "img.png" then some "app://img.png" else none,
   fun link _ => if link == "img" then some demoImgFile else none⟩

/-- C3 witness: the refinement theorem applied to the demonstration
environment and a markdown file whose frontmatter names the image through
a wikilink; both sides resolve to the resource path of the image. -/
theorem c3_witness :
    (∀ p, demoEnv.getFirstLinkpathDest "" p = none) ∧
    featureImageUrl demoEnv ⟨.modifiedDesc, none, none, true, ["feature"]⟩
        ⟨"doc.md", "doc.md", "doc", "md", ⟨0, 0⟩⟩
        (some ⟨some [("feature", "[[img]]")], none⟩) =
      specFeatureImageUrl demoEnv ⟨.modifiedDesc, none, none, true, ["feature"]⟩
        ⟨"doc.md", "doc.md", "doc", "md", ⟨0, 0⟩⟩
        (some ⟨some [("feature", "[[img]]")], none⟩) ∧
    featureImageUrl demoEnv ⟨.modifiedDesc, none, none, true, ["feature"]⟩
        ⟨"doc.md", "doc.md", "doc", "md", ⟨0, 0⟩⟩
        (some ⟨some [("feature", "[[img]]")], none⟩) = some "app://img.png" :=
  ⟨fun _ => rfl,
    c3_feature_image demoEnv ⟨.modifiedDesc, none, none, true, ["feature"]⟩
      ⟨"doc.md", "doc.md", "doc", "md", ⟨0, 0⟩⟩
      (some ⟨some [("feature", "[[img]]")], none⟩) (fun _ => rfl),
    by decide⟩
